import Mathlib

/-!
Shallow embedding of the task-management core of the CLI-Todo-App
(`src/main.py`): the `Task` data model with its `Priority` and `Status`
enumerations, the `TodoStorage` persistence translation
(`to_dict` / `from_dict` / `save_tasks` / `load_tasks`), and the
`TodoManager` operations (`_get_next_id`, `add_task`, `get_tasks`,
`get_task_by_id`, `update_task`, `delete_task`).

Modelling conventions:
* the wall clock is passed explicitly as a `now : String` parameter
  (Python's `datetime.now().isoformat()`);
* Python `None` becomes `Option.none`;
* the persisted JSON document is a list of association lists from string
  keys to JSON values (`Dict`), mirroring `json.dump`/`json.load` of a
  list of dicts;
* manager mutations return, next to their result, the new task list and
  a flag recording whether `_save_tasks` was invoked.
-/

set_option autoImplicit false

namespace TodoApp

/-- `class Priority(str, Enum)` of `src/main.py` (LOW/MEDIUM/HIGH). -/
inductive Priority where
  | low
  | medium
  | high
deriving DecidableEq, Repr

/-- The `.value` string of each `Priority` member. -/
def Priority.value : Priority → String
  | .low => "low"
  | .medium => "medium"
  | .high => "high"

/-- `class Status(str, Enum)` of `src/main.py` (PENDING/IN_PROGRESS/COMPLETED). -/
inductive Status where
  | pending
  | in_progress
  | completed
deriving DecidableEq, Repr

/-- The `.value` string of each `Status` member. -/
def Status.value : Status → String
  | .pending => "pending"
  | .in_progress => "in_progress"
  | .completed => "completed"

/-- The attributes of a Python `Task` object (`Task.__init__` stores
exactly these seven fields). -/
structure Task where
  task_id : Option Int
  title : String
  description : String
  priority : Priority
  status : Status
  created_at : String
  completed_at : Option String
deriving DecidableEq, Repr

/-- `Task.__init__`: `created_at = created_at or datetime.now().isoformat()`
uses Python truthiness, so both `None` and the empty string are replaced
by the current time `now`. -/
def Task.init (now : String) (title : String) (description : String)
    (priority : Priority) (status : Status) (created_at : Option String)
    (completed_at : Option String) (task_id : Option Int) : Task :=
  { task_id := task_id
    title := title
    description := description
    priority := priority
    status := status
    created_at :=
      match created_at with
      | none => now
      | some s => if s = "" then now else s
    completed_at := completed_at }

/-- `Task.mark_completed`: set status to COMPLETED and stamp `completed_at`. -/
def Task.mark_completed (now : String) (t : Task) : Task :=
  { t with status := .completed, completed_at := some now }

/-- `Task.mark_in_progress`: set status to IN_PROGRESS and clear `completed_at`. -/
def Task.mark_in_progress (t : Task) : Task :=
  { t with status := .in_progress, completed_at := none }

/-- Python's builtin `max` on a non-empty sequence of ints
(left fold of binary `max` over the sequence); `none` models the
`ValueError` raised on an empty sequence. -/
def listMax : List Int → Option Int
  | [] => none
  | x :: xs => some (xs.foldl max x)

/-- The generator `task.task_id for task in self.tasks if task.task_id`:
`if task.task_id` is Python truthiness, so `None` and `0` are skipped. -/
def pyIds (tasks : List Task) : List Int :=
  tasks.filterMap fun t =>
    match t.task_id with
    | none => none
    | some n => if n = 0 then none else some n

/-- `TodoManager._get_next_id`: `1` on an empty collection, otherwise
`max(task.task_id for task in self.tasks if task.task_id) + 1`;
`none` models the `ValueError` of `max` on an empty generator. -/
def getNextId (tasks : List Task) : Option Int :=
  if tasks = [] then some 1
  else (listMax (pyIds tasks)).map (· + 1)

/-- `TodoManager.add_task`: build a `Task` with the next id, default
status PENDING, `created_at = now`, append it, save, and return it.
The result is the new task, the new collection, and the save flag;
`none` models the exception propagated out of `_get_next_id`. -/
def addTask (now : String) (title : String) (description : String)
    (priority : Priority) (tasks : List Task) :
    Option (Task × List Task × Bool) :=
  (getNextId tasks).map fun nid =>
    let t := Task.init now title description priority .pending none none (some nid)
    (t, tasks ++ [t], true)

/-- `TodoManager.get_tasks`: all tasks (a copy) when no filter is given,
otherwise the list comprehension keeping the tasks whose status equals
the filter. -/
def getTasks (status_filter : Option Status) (tasks : List Task) : List Task :=
  match status_filter with
  | none => tasks
  | some s => tasks.filter fun t => t.status = s

/-- `TodoManager.get_task_by_id`: first task whose `task_id` equals the
requested id, `none` otherwise. -/
def getTaskById (task_id : Int) (tasks : List Task) : Option Task :=
  tasks.find? fun t => t.task_id = some task_id

/-- The field assignments of `TodoManager.update_task` on the found task:
each supplied field overwrites the old one; a supplied status additionally
triggers `mark_completed` / `mark_in_progress`. -/
def applyUpdate (now : String) (title : Option String)
    (description : Option String) (priority : Option Priority)
    (status : Option Status) (t : Task) : Task :=
  let t := match title with | none => t | some s => { t with title := s }
  let t := match description with | none => t | some s => { t with description := s }
  let t := match priority with | none => t | some p => { t with priority := p }
  match status with
  | none => t
  | some s =>
    let t := { t with status := s }
    match s with
    | .completed => t.mark_completed now
    | .in_progress => t.mark_in_progress
    | .pending => t

/-- Replace the first task whose id matches by `f` of it (the in-place
mutation of the object returned by `get_task_by_id`). -/
def updateFirst (task_id : Int) (f : Task → Task) : List Task → List Task
  | [] => []
  | t :: ts =>
    if t.task_id = some task_id then f t :: ts
    else t :: updateFirst task_id f ts

/-- `list.remove` of the object returned by `get_task_by_id`: drop the
first task whose id matches. -/
def removeFirst (task_id : Int) : List Task → List Task
  | [] => []
  | t :: ts =>
    if t.task_id = some task_id then ts
    else t :: removeFirst task_id ts

/-- `TodoManager.update_task`: `False` (no change, no save) when the id is
unknown; otherwise apply the supplied fields to the found task, save, and
return `True`. -/
def updateTask (now : String) (task_id : Int) (title : Option String)
    (description : Option String) (priority : Option Priority)
    (status : Option Status) (tasks : List Task) :
    Bool × List Task × Bool :=
  match getTaskById task_id tasks with
  | none => (false, tasks, false)
  | some _ =>
    (true, updateFirst task_id (applyUpdate now title description priority status) tasks, true)

/-- `TodoManager.delete_task`: `False` (no change, no save) when the id is
unknown; otherwise remove the found task, save, and return `True`. -/
def deleteTask (task_id : Int) (tasks : List Task) : Bool × List Task × Bool :=
  match getTaskById task_id tasks with
  | none => (false, tasks, false)
  | some _ => (true, removeFirst task_id tasks, true)

/-! ## Persistence layer (`TodoStorage`, `Task.to_dict` / `Task.from_dict`)

The persisted file is a JSON array of objects. A JSON object is modelled
as an association list from string keys to JSON values; the values that
actually occur in `todos.json` are strings, integers and `null`. Records
holding a value of any other JSON type in a field (e.g. a list where a
string is expected) are outside the persisted layout and are modelled as
conversion failures. -/

/-- A JSON value as it occurs in a persisted task record. -/
inductive JsonVal where
  | null
  | str (s : String)
  | int (n : Int)
deriving DecidableEq, Repr

/-- A JSON object: association list from keys to values. -/
abbrev Dict := List (String × JsonVal)

/-- Python `dict.get(key)`: first value stored under `key`, else `None`. -/
def dictGet (d : Dict) (key : String) : Option JsonVal :=
  (d.find? fun kv => kv.1 = key).map Prod.snd

/-- `Task.to_dict`: the record written for one task, with the literal
Python keys in source order; enum fields are serialised via `.value`. -/
def Task.to_dict (t : Task) : Dict :=
  [ ("task_id", match t.task_id with | none => .null | some n => .int n)
  , ("title", .str t.title)
  , ("description", .str t.description)
  , ("priority", .str t.priority.value)
  , ("status", .str t.status.value)
  , ("created_at", .str t.created_at)
  , ("completed_at", match t.completed_at with | none => .null | some s => .str s) ]

/-- `Priority(value)`: the member with that `.value`, else the
`ValueError` that `load_tasks` catches. -/
def parsePriority : JsonVal → Except Unit Priority
  | .str "low" => .ok .low
  | .str "medium" => .ok .medium
  | .str "high" => .ok .high
  | _ => .error ()

/-- `Status(value)`: the member with that `.value`, else the
`ValueError` that `load_tasks` catches. -/
def parseStatus : JsonVal → Except Unit Status
  | .str "pending" => .ok .pending
  | .str "in_progress" => .ok .in_progress
  | .str "completed" => .ok .completed
  | _ => .error ()

/-- `Task.from_dict`: rebuild a `Task` from a persisted record through
`Task.__init__`. A missing `title` key is the `KeyError`, an invalid
`priority`/`status` value the `ValueError`, both caught by `load_tasks`;
a value of a JSON type outside the persisted layout is likewise modelled
as `.error`. -/
def Task.from_dict (now : String) (d : Dict) : Except Unit Task := do
  let task_id ←
    match dictGet d "task_id" with
    | none => pure (none : Option Int)
    | some .null => pure none
    | some (.int n) => pure (some n)
    | some _ => .error ()
  let title ←
    match dictGet d "title" with
    | some (.str s) => pure s
    | _ => .error ()
  let description ←
    match dictGet d "description" with
    | none => pure ""
    | some (.str s) => pure s
    | some _ => .error ()
  let priority ← parsePriority ((dictGet d "priority").getD (.str "medium"))
  let status ← parseStatus ((dictGet d "status").getD (.str "pending"))
  let created_at ←
    match dictGet d "created_at" with
    | none => pure (none : Option String)
    | some .null => pure none
    | some (.str s) => pure (some s)
    | some _ => .error ()
  let completed_at ←
    match dictGet d "completed_at" with
    | none => pure (none : Option String)
    | some .null => pure none
    | some (.str s) => pure (some s)
    | some _ => .error ()
  pure (Task.init now title description priority status created_at completed_at task_id)

/-- `TodoStorage.save_tasks`: the document written to the file is the
list of the tasks' records, in collection order. -/
def saveDoc (tasks : List Task) : List Dict :=
  tasks.map Task.to_dict

/-- What `load_tasks` finds: no file, a file `json.load` cannot parse,
a parsed JSON array of records, or any other unexpected failure
(e.g. permission denied). -/
inductive LoadInput where
  | missing
  | parseError
  | doc (ds : List Dict)
  | otherError

/-- The outcome of `load_tasks`: the returned list and whether an error
message was printed to the console. -/
structure LoadResult where
  tasks : List Task
  warned : Bool
deriving DecidableEq, Repr

/-- `TodoStorage.load_tasks`: `[]` for a missing file; the converted
records of a parsed document, where the first record that fails
`Task.from_dict` aborts the comprehension and the caught exception
degrades the whole result to `[]` with a warning; `[]` with a warning for
a parse failure or any other unexpected error. -/
def loadTasks (now : String) : LoadInput → LoadResult
  | .missing => ⟨[], false⟩
  | .parseError => ⟨[], true⟩
  | .doc ds =>
    match ds.mapM (Task.from_dict now) with
    | .ok ts => ⟨ts, false⟩
    | .error _ => ⟨[], true⟩
  | .otherError => ⟨[], true⟩

/-! ## Auxiliary predicates and spec-side definitions -/

/-- The task carries an id and it is positive (the spec's data model:
`id: positive integer`). -/
def hasPosIdB (t : Task) : Bool :=
  match t.task_id with
  | some n => decide (0 < n)
  | none => false

/-- The spec's id-assignment rule, written from the spec's words, for
comparison with `getNextId`: one greater than the maximum ID currently
present in the collection, starting at 1 for an empty collection. -/
def specNextId (tasks : List Task) : Int :=
  match listMax (tasks.filterMap Task.task_id) with
  | none => 1
  | some m => m + 1

/-- A sequence of `n` `add_task` calls (same arguments each time)
starting from the empty collection; `none` if any call fails. -/
def addNTasks (now title description : String) (priority : Priority) :
    Nat → Option (List Task)
  | 0 => some []
  | n + 1 =>
    (addNTasks now title description priority n).bind fun ts =>
      (addTask now title description priority ts).map fun r => r.2.1

/-! ## Lemmas about `listMax`, `pyIds` and `getNextId` -/

theorem listMax_concat (xs : List Int) (y : Int) :
    listMax (xs ++ [y]) = some ((listMax xs).elim y (fun m => max m y)) := by
  cases xs with
  | nil => rfl
  | cons x xs => simp [listMax, List.foldl_append]

theorem pyIds_eq_filterMap (tasks : List Task)
    (h : ∀ t ∈ tasks, hasPosIdB t = true) :
    pyIds tasks = tasks.filterMap Task.task_id := by
  induction tasks with
  | nil => rfl
  | cons t ts ih =>
    have ht := h t (List.mem_cons_self t ts)
    unfold hasPosIdB at ht
    cases htid : t.task_id with
    | none => rw [htid] at ht; simp at ht
    | some n =>
      rw [htid] at ht
      have hn : 0 < n := by simpa using ht
      have hn0 : ¬ n = 0 := by omega
      have hts : pyIds ts = ts.filterMap Task.task_id :=
        ih fun u hu => h u (List.mem_cons_of_mem t hu)
      simp only [pyIds, List.filterMap_cons, htid, if_neg hn0] at *
      rw [hts]

theorem getNextId_eq_specNextId (tasks : List Task)
    (h : ∀ t ∈ tasks, hasPosIdB t = true) :
    getNextId tasks = some (specNextId tasks) := by
  cases tasks with
  | nil => rfl
  | cons t ts =>
    have ht := h t (List.mem_cons_self t ts)
    unfold hasPosIdB at ht
    cases htid : t.task_id with
    | none => rw [htid] at ht; simp at ht
    | some n =>
      have hpy := pyIds_eq_filterMap (t :: ts) h
      unfold getNextId specNextId
      rw [if_neg (by simp), hpy, List.filterMap_cons, htid]
      simp [listMax]

/-! ## C1: id assignment by `add_task` -/

theorem addTask_assigns_specNextId (tasks : List Task)
    (h : ∀ t ∈ tasks, hasPosIdB t = true)
    (now title description : String) (priority : Priority) :
    ∃ nt, addTask now title description priority tasks =
        some (nt, tasks ++ [nt], true) ∧
      nt.task_id = some (specNextId tasks) := by
  refine ⟨Task.init now title description priority .pending none none
    (some (specNextId tasks)), ?_, rfl⟩
  unfold addTask
  rw [getNextId_eq_specNextId tasks h]
  rfl

theorem pyIds_of_map_some (ts : List Task) (l : List Int)
    (h : ts.map Task.task_id = l.map some) (h0 : ∀ x ∈ l, ¬ x = 0) :
    pyIds ts = l := by
  induction ts generalizing l with
  | nil =>
    have : l = [] := by
      cases l with
      | nil => rfl
      | cons x xs => simp at h
    subst this
    rfl
  | cons a as ih =>
    cases l with
    | nil => simp at h
    | cons x xs =>
      simp only [List.map_cons, List.cons.injEq] at h
      obtain ⟨ha, has⟩ := h
      have hx0 : ¬ x = 0 := h0 x (List.mem_cons_self x xs)
      simp only [pyIds, List.filterMap_cons, ha, if_neg hx0]
      have := ih xs has fun y hy => h0 y (List.mem_cons_of_mem x hy)
      simp only [pyIds] at this
      rw [this]

theorem listMax_range_map (k : Nat) :
    listMax ((List.range (k + 1)).map fun i => Int.ofNat i + 1) =
      some (Int.ofNat k + 1) := by
  induction k with
  | zero => rfl
  | succ m ih =>
    rw [List.range_succ, List.map_append]
    simp only [List.map_cons, List.map_nil]
    rw [listMax_concat, ih]
    simp only [Option.elim]
    rw [max_eq_right (by simp only [Int.ofNat_eq_coe]; omega)]

theorem ids_range_getNextId (n : Nat) (ts : List Task)
    (hids : ts.map Task.task_id =
      (List.range n).map fun i => some (Int.ofNat i + 1)) :
    getNextId ts = some (Int.ofNat n + 1) := by
  cases n with
  | zero =>
    have : ts = [] := by
      cases ts with
      | nil => rfl
      | cons a as => simp [List.range_zero] at hids
    subst this
    rfl
  | succ k =>
    have hne : ¬ ts = [] := by
      intro he
      subst he
      rw [List.range_succ] at hids
      simp at hids
    have hmapsome : ((List.range (k + 1)).map fun i => some (Int.ofNat i + 1)) =
        ((List.range (k + 1)).map fun i => Int.ofNat i + 1).map some := by
      rw [List.map_map]
      rfl
    have hpy : pyIds ts = (List.range (k + 1)).map fun i => Int.ofNat i + 1 := by
      refine pyIds_of_map_some ts _ ?_ ?_
      · rw [← hmapsome]; exact hids
      · intro x hx
        obtain ⟨i, _, hi⟩ := List.mem_map.mp hx
        have hx2 : x = Int.ofNat i + 1 := hi.symm
        simp only [Int.ofNat_eq_coe] at hx2
        omega
    unfold getNextId
    rw [if_neg hne, hpy, listMax_range_map]
    rfl

theorem addNTasks_ids (now title description : String) (priority : Priority)
    (n : Nat) :
    ∃ ts, addNTasks now title description priority n = some ts ∧
      ts.map Task.task_id = (List.range n).map fun i => some (Int.ofNat i + 1) := by
  induction n with
  | zero => exact ⟨[], rfl, by simp⟩
  | succ k ih =>
    obtain ⟨ts, hts, hids⟩ := ih
    have hnext := ids_range_getNextId k ts hids
    refine ⟨ts ++ [Task.init now title description priority .pending none none
      (some (Int.ofNat k + 1))], ?_, ?_⟩
    · unfold addNTasks
      rw [hts]
      show (addTask now title description priority ts).map (fun r => r.2.1) =
        some (ts ++ [Task.init now title description priority .pending none none
          (some (Int.ofNat k + 1))])
      unfold addTask
      rw [hnext]
      rfl
    · rw [List.map_append, hids, List.range_succ, List.map_append]
      simp [Task.init]

/-- C1: for every collection whose tasks all carry (positive) IDs, `add`
assigns the new task the ID one greater than the maximum ID currently
present (1 if the collection is empty); for every sequence of N `add`
calls starting from an empty collection the assigned IDs are exactly 1..N
in call order; and after loading a collection whose maximum ID is 5 (in
any storage order, with gaps allowed) the next `add` yields ID 6. -/
theorem c1_id_assignment :
    (∀ tasks now title description priority,
      (∀ t ∈ tasks, hasPosIdB t = true) →
      ∃ nt, addTask now title description priority tasks =
          some (nt, tasks ++ [nt], true) ∧
        nt.task_id = some (specNextId tasks))
    ∧ (∀ now title description priority n,
      ∃ ts, addNTasks now title description priority n = some ts ∧
        ts.map Task.task_id = (List.range n).map fun i => some (Int.ofNat i + 1))
    ∧ (∀ tasks now title description priority,
      (∀ t ∈ tasks, hasPosIdB t = true) →
      listMax (tasks.filterMap Task.task_id) = some 5 →
      ∃ nt, addTask now title description priority tasks =
          some (nt, tasks ++ [nt], true) ∧
        nt.task_id = some 6) := by
  refine ⟨fun tasks now title d p h => addTask_assigns_specNextId tasks h now title d p,
    fun now title d p n => addNTasks_ids now title d p n,
    fun tasks now title d p h hmax => ?_⟩
  obtain ⟨nt, h1, h2⟩ := addTask_assigns_specNextId tasks h now title d p
  refine ⟨nt, h1, ?_⟩
  rw [h2]
  unfold specNextId
  rw [hmax]
  rfl

/-- Witness for C1: a collection with IDs 3, 5, 1 (max 5, gaps, out of
order) gets 6 as the next ID, and three `add` calls from the empty
collection are assigned IDs 1, 2, 3. -/
theorem c1_id_assignment_witness :
    (∃ nt, addTask "T9" "w" "" .medium
        [⟨some 3, "a", "", .medium, .pending, "T1", none⟩,
         ⟨some 5, "b", "", .high, .completed, "T2", some "T3"⟩,
         ⟨some 1, "c", "", .low, .in_progress, "T4", none⟩] =
        some (nt,
          [⟨some 3, "a", "", .medium, .pending, "T1", none⟩,
           ⟨some 5, "b", "", .high, .completed, "T2", some "T3"⟩,
           ⟨some 1, "c", "", .low, .in_progress, "T4", none⟩] ++ [nt], true) ∧
      nt.task_id = some 6)
    ∧ (∃ ts, addNTasks "T0" "x" "" .medium 3 = some ts ∧
      ts.map Task.task_id = (List.range 3).map fun i => some (Int.ofNat i + 1)) := by
  constructor
  · exact c1_id_assignment.2.2
      [⟨some 3, "a", "", .medium, .pending, "T1", none⟩,
       ⟨some 5, "b", "", .high, .completed, "T2", some "T3"⟩,
       ⟨some 1, "c", "", .low, .in_progress, "T4", none⟩]
      "T9" "w" "" .medium (by decide) (by decide)
  · exact c1_id_assignment.2.1 "T0" "x" "" .medium 3

/-! ## Lookup and first-occurrence decomposition lemmas -/

theorem getTaskById_eq_none (tid : Int) (tasks : List Task)
    (h : ∀ t ∈ tasks, ¬ t.task_id = some tid) :
    getTaskById tid tasks = none := by
  unfold getTaskById
  apply List.find?_eq_none.mpr
  intro t ht
  simpa using h t ht

theorem getTaskById_decomp (tid : Int) (pre post : List Task) (t : Task)
    (hpre : ∀ u ∈ pre, ¬ u.task_id = some tid) (ht : t.task_id = some tid) :
    getTaskById tid (pre ++ t :: post) = some t := by
  induction pre with
  | nil =>
    simp only [List.nil_append]
    unfold getTaskById
    exact List.find?_cons_of_pos _ (by simp [ht])
  | cons u pre ih =>
    have hu := hpre u (List.mem_cons_self u pre)
    simp only [List.cons_append]
    unfold getTaskById
    rw [List.find?_cons_of_neg _ (by simpa using hu)]
    exact ih fun v hv => hpre v (List.mem_cons_of_mem u hv)

theorem updateFirst_decomp (tid : Int) (f : Task → Task) (pre post : List Task)
    (t : Task) (hpre : ∀ u ∈ pre, ¬ u.task_id = some tid)
    (ht : t.task_id = some tid) :
    updateFirst tid f (pre ++ t :: post) = pre ++ f t :: post := by
  induction pre with
  | nil => simp [updateFirst, ht]
  | cons u pre ih =>
    have hu := hpre u (List.mem_cons_self u pre)
    simp only [List.cons_append, updateFirst, if_neg hu]
    exact congrArg (List.cons u) (ih fun v hv => hpre v (List.mem_cons_of_mem u hv))

theorem removeFirst_decomp (tid : Int) (pre post : List Task) (t : Task)
    (hpre : ∀ u ∈ pre, ¬ u.task_id = some tid) (ht : t.task_id = some tid) :
    removeFirst tid (pre ++ t :: post) = pre ++ post := by
  induction pre with
  | nil => simp [removeFirst, ht]
  | cons u pre ih =>
    have hu := hpre u (List.mem_cons_self u pre)
    simp only [List.cons_append, removeFirst, if_neg hu]
    exact congrArg (List.cons u) (ih fun v hv => hpre v (List.mem_cons_of_mem u hv))

/-! ## Field behaviour of `update_task`'s assignments -/

theorem applyUpdate_fields (now : String) (ti de : Option String)
    (pr : Option Priority) (st : Option Status) (t : Task) :
    (applyUpdate now ti de pr st t).task_id = t.task_id
    ∧ (applyUpdate now ti de pr st t).created_at = t.created_at
    ∧ (ti = none → (applyUpdate now ti de pr st t).title = t.title)
    ∧ (∀ s, ti = some s → (applyUpdate now ti de pr st t).title = s)
    ∧ (de = none → (applyUpdate now ti de pr st t).description = t.description)
    ∧ (∀ s, de = some s → (applyUpdate now ti de pr st t).description = s)
    ∧ (pr = none → (applyUpdate now ti de pr st t).priority = t.priority)
    ∧ (∀ p, pr = some p → (applyUpdate now ti de pr st t).priority = p)
    ∧ (st = none → (applyUpdate now ti de pr st t).status = t.status
        ∧ (applyUpdate now ti de pr st t).completed_at = t.completed_at)
    ∧ (∀ s, st = some s → (applyUpdate now ti de pr st t).status = s) := by
  rcases st with _ | s
  · cases ti <;> cases de <;> cases pr <;>
      simp [applyUpdate, Task.mark_completed, Task.mark_in_progress]
  · cases s <;> cases ti <;> cases de <;> cases pr <;>
      simp [applyUpdate, Task.mark_completed, Task.mark_in_progress]

theorem applyUpdate_status_completed (now : String) (ti de : Option String)
    (pr : Option Priority) (t : Task) :
    (applyUpdate now ti de pr (some .completed) t).status = .completed
    ∧ (applyUpdate now ti de pr (some .completed) t).completed_at = some now := by
  cases ti <;> cases de <;> cases pr <;> simp [applyUpdate, Task.mark_completed]

theorem applyUpdate_status_in_progress (now : String) (ti de : Option String)
    (pr : Option Priority) (t : Task) :
    (applyUpdate now ti de pr (some .in_progress) t).status = .in_progress
    ∧ (applyUpdate now ti de pr (some .in_progress) t).completed_at = none := by
  cases ti <;> cases de <;> cases pr <;> simp [applyUpdate, Task.mark_in_progress]

theorem applyUpdate_status_pending (now : String) (ti de : Option String)
    (pr : Option Priority) (t : Task) :
    (applyUpdate now ti de pr (some .pending) t).status = .pending
    ∧ (applyUpdate now ti de pr (some .pending) t).completed_at = t.completed_at := by
  cases ti <;> cases de <;> cases pr <;> simp [applyUpdate]

theorem updateTask_found (now : String) (tid : Int) (ti de : Option String)
    (pr : Option Priority) (st : Option Status) (pre post : List Task)
    (t : Task) (hpre : ∀ u ∈ pre, ¬ u.task_id = some tid)
    (ht : t.task_id = some tid) :
    updateTask now tid ti de pr st (pre ++ t :: post) =
      (true, pre ++ applyUpdate now ti de pr st t :: post, true) := by
  unfold updateTask
  rw [getTaskById_decomp tid pre post t hpre ht,
    updateFirst_decomp tid _ pre post t hpre ht]

/-- C2: for a task present in the collection, `update` with status
`completed` sets its `completed_at` to the (non-null) current timestamp;
with status `in_progress` it clears `completed_at` to none and sets the
status to `in_progress`; with status `pending` it changes the status to
`pending` while leaving `completed_at` exactly as it was. -/
theorem c2_status_timestamps (now : String) (tid : Int)
    (ti de : Option String) (pr : Option Priority) (pre post : List Task)
    (t : Task) (hpre : ∀ u ∈ pre, ¬ u.task_id = some tid)
    (ht : t.task_id = some tid) :
    (∃ t2, updateTask now tid ti de pr (some .completed) (pre ++ t :: post) =
        (true, pre ++ t2 :: post, true)
      ∧ t2.status = .completed ∧ t2.completed_at = some now)
    ∧ (∃ t2, updateTask now tid ti de pr (some .in_progress) (pre ++ t :: post) =
        (true, pre ++ t2 :: post, true)
      ∧ t2.status = .in_progress ∧ t2.completed_at = none)
    ∧ (∃ t2, updateTask now tid ti de pr (some .pending) (pre ++ t :: post) =
        (true, pre ++ t2 :: post, true)
      ∧ t2.status = .pending ∧ t2.completed_at = t.completed_at) := by
  refine ⟨⟨applyUpdate now ti de pr (some .completed) t,
      updateTask_found now tid ti de pr (some .completed) pre post t hpre ht,
      (applyUpdate_status_completed now ti de pr t).1,
      (applyUpdate_status_completed now ti de pr t).2⟩,
    ⟨applyUpdate now ti de pr (some .in_progress) t,
      updateTask_found now tid ti de pr (some .in_progress) pre post t hpre ht,
      (applyUpdate_status_in_progress now ti de pr t).1,
      (applyUpdate_status_in_progress now ti de pr t).2⟩,
    ⟨applyUpdate now ti de pr (some .pending) t,
      updateTask_found now tid ti de pr (some .pending) pre post t hpre ht,
      (applyUpdate_status_pending now ti de pr t).1,
      (applyUpdate_status_pending now ti de pr t).2⟩⟩

/-- Witness for C2: a completed task with id 4 is marked in-progress,
which clears its completion timestamp. -/
theorem c2_status_timestamps_witness :
    ∃ t2, updateTask "N5" 4 none none none (some .in_progress)
        ([] ++ (⟨some 4, "a", "", .medium, .completed, "T1", some "T2"⟩ : Task) ::
          [⟨some 9, "b", "", .low, .pending, "T3", none⟩]) =
      (true, [] ++ t2 :: [⟨some 9, "b", "", .low, .pending, "T3", none⟩], true)
      ∧ t2.status = .in_progress ∧ t2.completed_at = none :=
  (c2_status_timestamps "N5" 4 none none none []
    [⟨some 9, "b", "", .low, .pending, "T3", none⟩]
    ⟨some 4, "a", "", .medium, .completed, "T1", some "T2"⟩
    (by simp) (by decide)).2.1

/-- C7: for a task present in the collection and any subset of supplied
fields, `update` modifies exactly the supplied fields of that task,
leaves every omitted field (and its id and `created_at`, and all other
tasks) unchanged, persists, and returns true — even when no field is
supplied. -/
theorem c7_partial_update (now : String) (tid : Int) (ti de : Option String)
    (pr : Option Priority) (st : Option Status) (pre post : List Task)
    (t : Task) (hpre : ∀ u ∈ pre, ¬ u.task_id = some tid)
    (ht : t.task_id = some tid) :
    ∃ t2, updateTask now tid ti de pr st (pre ++ t :: post) =
        (true, pre ++ t2 :: post, true)
      ∧ t2.task_id = t.task_id
      ∧ t2.created_at = t.created_at
      ∧ (ti = none → t2.title = t.title)
      ∧ (∀ s, ti = some s → t2.title = s)
      ∧ (de = none → t2.description = t.description)
      ∧ (∀ s, de = some s → t2.description = s)
      ∧ (pr = none → t2.priority = t.priority)
      ∧ (∀ p, pr = some p → t2.priority = p)
      ∧ (st = none → t2.status = t.status ∧ t2.completed_at = t.completed_at)
      ∧ (∀ s, st = some s → t2.status = s) :=
  ⟨applyUpdate now ti de pr st t,
    updateTask_found now tid ti de pr st pre post t hpre ht,
    applyUpdate_fields now ti de pr st t⟩

/-- Witness for C7: updating only the priority of task 4 keeps its title,
description, status and timestamps, leaves the other task alone,
persists and returns true. -/
theorem c7_partial_update_witness :
    ∃ t2, updateTask "N7" 4 none none (some .high) none
        ([⟨some 2, "z", "", .low, .pending, "T0", none⟩] ++
          (⟨some 4, "a", "d", .medium, .completed, "T1", some "T2"⟩ : Task) :: []) =
      (true, [⟨some 2, "z", "", .low, .pending, "T0", none⟩] ++ t2 :: [], true)
      ∧ t2.task_id = (⟨some 4, "a", "d", .medium, .completed, "T1", some "T2"⟩ : Task).task_id
      ∧ t2.created_at = (⟨some 4, "a", "d", .medium, .completed, "T1", some "T2"⟩ : Task).created_at
      ∧ ((none : Option String) = none → t2.title = (⟨some 4, "a", "d", .medium, .completed, "T1", some "T2"⟩ : Task).title)
      ∧ (∀ s, (none : Option String) = some s → t2.title = s)
      ∧ ((none : Option String) = none → t2.description = (⟨some 4, "a", "d", .medium, .completed, "T1", some "T2"⟩ : Task).description)
      ∧ (∀ s, (none : Option String) = some s → t2.description = s)
      ∧ ((some Priority.high : Option Priority) = none → t2.priority = (⟨some 4, "a", "d", .medium, .completed, "T1", some "T2"⟩ : Task).priority)
      ∧ (∀ p, (some Priority.high : Option Priority) = some p → t2.priority = p)
      ∧ ((none : Option Status) = none → t2.status = (⟨some 4, "a", "d", .medium, .completed, "T1", some "T2"⟩ : Task).status
          ∧ t2.completed_at = (⟨some 4, "a", "d", .medium, .completed, "T1", some "T2"⟩ : Task).completed_at)
      ∧ (∀ s, (none : Option Status) = some s → t2.status = s) :=
  c7_partial_update "N7" 4 none none (some .high) none
    [⟨some 2, "z", "", .low, .pending, "T0", none⟩] []
    ⟨some 4, "a", "d", .medium, .completed, "T1", some "T2"⟩
    (by decide) (by decide)

/-- C10: for every ID not present in the collection, `update` returns
false, leaves the collection exactly unchanged, and does not call save. -/
theorem c10_update_not_found (now : String) (tid : Int)
    (ti de : Option String) (pr : Option Priority) (st : Option Status)
    (tasks : List Task) (h : ∀ t ∈ tasks, ¬ t.task_id = some tid) :
    updateTask now tid ti de pr st tasks = (false, tasks, false) := by
  unfold updateTask
  rw [getTaskById_eq_none tid tasks h]

/-- Witness for C10: updating id 7, absent from a two-task collection,
fails without touching the collection or saving. -/
theorem c10_update_not_found_witness :
    updateTask "N9" 7 (some "new") none none (some .completed)
        [⟨some 3, "a", "", .medium, .pending, "T1", none⟩,
         ⟨some 5, "b", "", .high, .completed, "T2", some "T3"⟩] =
      (false,
        [⟨some 3, "a", "", .medium, .pending, "T1", none⟩,
         ⟨some 5, "b", "", .high, .completed, "T2", some "T3"⟩], false) :=
  c10_update_not_found "N9" 7 (some "new") none none (some .completed)
    [⟨some 3, "a", "", .medium, .pending, "T1", none⟩,
     ⟨some 5, "b", "", .high, .completed, "T2", some "T3"⟩]
    (by decide)

/-- C5: `delete` of an absent ID returns false with the collection
unchanged and no save call; `delete` of a present ID removes that task
(the first occurrence of the ID), saves, and returns true. -/
theorem c5_delete (tid : Int) (tasks : List Task) :
    ((∀ t ∈ tasks, ¬ t.task_id = some tid) →
      deleteTask tid tasks = (false, tasks, false))
    ∧ (∀ pre t post, tasks = pre ++ t :: post →
      (∀ u ∈ pre, ¬ u.task_id = some tid) → t.task_id = some tid →
      deleteTask tid tasks = (true, pre ++ post, true)) := by
  constructor
  · intro h
    unfold deleteTask
    rw [getTaskById_eq_none tid tasks h]
  · intro pre t post heq hpre ht
    subst heq
    unfold deleteTask
    rw [getTaskById_decomp tid pre post t hpre ht,
      removeFirst_decomp tid pre post t hpre ht]

/-- Witness for C5: deleting id 5 removes exactly the task with id 5 and
saves; deleting the absent id 7 changes nothing and does not save. -/
theorem c5_delete_witness :
    deleteTask 5
        [⟨some 3, "a", "", .medium, .pending, "T1", none⟩,
         ⟨some 5, "b", "", .high, .completed, "T2", some "T3"⟩,
         ⟨some 1, "c", "", .low, .in_progress, "T4", none⟩] =
      (true,
        [⟨some 3, "a", "", .medium, .pending, "T1", none⟩] ++
          [⟨some 1, "c", "", .low, .in_progress, "T4", none⟩], true)
    ∧ deleteTask 7
        [⟨some 3, "a", "", .medium, .pending, "T1", none⟩] =
      (false, [⟨some 3, "a", "", .medium, .pending, "T1", none⟩], false) :=
  ⟨(c5_delete 5
      [⟨some 3, "a", "", .medium, .pending, "T1", none⟩,
       ⟨some 5, "b", "", .high, .completed, "T2", some "T3"⟩,
       ⟨some 1, "c", "", .low, .in_progress, "T4", none⟩]).2
      [⟨some 3, "a", "", .medium, .pending, "T1", none⟩]
      ⟨some 5, "b", "", .high, .completed, "T2", some "T3"⟩
      [⟨some 1, "c", "", .low, .in_progress, "T4", none⟩]
      rfl (by decide) (by decide),
    (c5_delete 7 [⟨some 3, "a", "", .medium, .pending, "T1", none⟩]).1
      (by decide)⟩

/-- C3 counterexample: `add_task` performs no title validation — called
with an empty title on the empty collection it creates, appends, saves
and returns a task whose title is the empty string, so the collection is
mutated rather than the request being rejected. -/
theorem c3_counterexample :
    addTask "T0" "" "" .medium [] =
      some (⟨some 1, "", "", .medium, .pending, "T0", none⟩,
        [⟨some 1, "", "", .medium, .pending, "T0", none⟩], true)
    ∧ ([(⟨some 1, "", "", .medium, .pending, "T0", none⟩ : Task)] : List Task) ≠ [] := by
  constructor
  · rfl
  · intro h
    cases h

/-- C3 amended: `add` with an empty title is not rejected; it behaves
exactly like any other `add` — a task with the empty title is created,
appended, persisted, and returned. -/
theorem c3_empty_title_accepted (now description : String)
    (priority : Priority) (tasks : List Task)
    (h : ∀ t ∈ tasks, hasPosIdB t = true) :
    ∃ nt, addTask now "" description priority tasks =
        some (nt, tasks ++ [nt], true)
      ∧ nt.title = "" := by
  refine ⟨Task.init now "" description priority .pending none none
    (some (specNextId tasks)), ?_, rfl⟩
  unfold addTask
  rw [getNextId_eq_specNextId tasks h]
  rfl

/-- Witness for C3's amended statement: an empty-title `add` on a
one-task collection succeeds and returns a task titled `""`. -/
theorem c3_empty_title_accepted_witness :
    ∃ nt, addTask "T5" "" "d" .high
        [⟨some 2, "a", "", .medium, .pending, "T1", none⟩] =
      some (nt, [⟨some 2, "a", "", .medium, .pending, "T1", none⟩] ++ [nt], true)
      ∧ nt.title = "" :=
  c3_empty_title_accepted "T5" "d" .high
    [⟨some 2, "a", "", .medium, .pending, "T1", none⟩] (by decide)

/-- C6: `get_all` with a status filter returns exactly the subset of
tasks whose status equals the filter, in their original relative order
(a sublist of the collection), with no persistence side effect (it is a
pure query); with no filter it returns all tasks in order. -/
theorem c6_get_tasks (tasks : List Task) (filt : Status) :
    getTasks none tasks = tasks
    ∧ getTasks (some filt) tasks = tasks.filter (fun t => t.status = filt)
    ∧ (getTasks (some filt) tasks).Sublist tasks
    ∧ (∀ t, t ∈ getTasks (some filt) tasks ↔ t ∈ tasks ∧ t.status = filt) := by
  refine ⟨rfl, rfl, ?_, ?_⟩
  · exact List.filter_sublist tasks
  · intro t
    simp [getTasks, List.mem_filter]

/-- Witness for C6: on a mixed-status collection, filtering by pending
keeps exactly the pending tasks in order. -/
theorem c6_get_tasks_witness :
    getTasks none
        [⟨some 1, "a", "", .medium, .pending, "T1", none⟩,
         ⟨some 2, "b", "", .high, .completed, "T2", some "T3"⟩,
         ⟨some 3, "c", "", .low, .pending, "T4", none⟩] =
      [⟨some 1, "a", "", .medium, .pending, "T1", none⟩,
       ⟨some 2, "b", "", .high, .completed, "T2", some "T3"⟩,
       ⟨some 3, "c", "", .low, .pending, "T4", none⟩]
    ∧ getTasks (some .pending)
        [⟨some 1, "a", "", .medium, .pending, "T1", none⟩,
         ⟨some 2, "b", "", .high, .completed, "T2", some "T3"⟩,
         ⟨some 3, "c", "", .low, .pending, "T4", none⟩] =
      ([⟨some 1, "a", "", .medium, .pending, "T1", none⟩,
        ⟨some 2, "b", "", .high, .completed, "T2", some "T3"⟩,
        ⟨some 3, "c", "", .low, .pending, "T4", none⟩].filter
          (fun t => t.status = .pending)) :=
  ⟨(c6_get_tasks
      [⟨some 1, "a", "", .medium, .pending, "T1", none⟩,
       ⟨some 2, "b", "", .high, .completed, "T2", some "T3"⟩,
       ⟨some 3, "c", "", .low, .pending, "T4", none⟩] .pending).1,
    (c6_get_tasks
      [⟨some 1, "a", "", .medium, .pending, "T1", none⟩,
       ⟨some 2, "b", "", .high, .completed, "T2", some "T3"⟩,
       ⟨some 3, "c", "", .low, .pending, "T4", none⟩] .pending).2.1⟩

/-! ## Round-trip and defensive-load lemmas -/

theorem from_dict_to_dict (now : String) (t : Task)
    (h : ¬ t.created_at = "") :
    Task.from_dict now (Task.to_dict t) = .ok t := by
  rcases t with ⟨tid, title, de, pr, st, ca, co⟩
  simp only at h
  rcases tid with _ | n <;> rcases co with _ | c <;> cases pr <;> cases st <;>
    (simp [Task.from_dict, Task.to_dict, dictGet, List.find?, parsePriority,
      parseStatus, Task.init, Priority.value, Status.value, h]; try rfl)

/-- C4: saving any collection (empty, one task, tasks without a
`completed_at`) and loading it back reproduces the collection
field-for-field, with no warning. -/
theorem c4_save_load_roundtrip (now : String) (tasks : List Task)
    (h : ∀ t ∈ tasks, ¬ t.created_at = "") :
    loadTasks now (.doc (saveDoc tasks)) = ⟨tasks, false⟩ := by
  have hmap : (tasks.map Task.to_dict).mapM (Task.from_dict now) = .ok tasks := by
    induction tasks with
    | nil => rfl
    | cons a as ih =>
      have ha := from_dict_to_dict now a (h a (List.mem_cons_self a as))
      have has := ih fun u hu => h u (List.mem_cons_of_mem a hu)
      rw [List.map_cons, List.mapM_cons, ha, has]
      rfl
  show (match (tasks.map Task.to_dict).mapM (Task.from_dict now) with
    | .ok ts => (⟨ts, false⟩ : LoadResult)
    | .error _ => ⟨[], true⟩) = ⟨tasks, false⟩
  rw [hmap]

/-- Witness for C4: the empty collection, a single pending task with no
`completed_at`, and a two-task collection with a completed task all
survive the save/load round trip unchanged. -/
theorem c4_save_load_roundtrip_witness :
    loadTasks "NOW" (.doc (saveDoc [])) = ⟨[], false⟩
    ∧ loadTasks "NOW" (.doc (saveDoc
        [⟨some 1, "a", "", .medium, .pending, "T1", none⟩])) =
      ⟨[⟨some 1, "a", "", .medium, .pending, "T1", none⟩], false⟩
    ∧ loadTasks "NOW" (.doc (saveDoc
        [⟨some 1, "a", "d", .high, .completed, "T1", some "T2"⟩,
         ⟨some 2, "b", "", .low, .in_progress, "T3", none⟩])) =
      ⟨[⟨some 1, "a", "d", .high, .completed, "T1", some "T2"⟩,
        ⟨some 2, "b", "", .low, .in_progress, "T3", none⟩], false⟩ :=
  ⟨c4_save_load_roundtrip "NOW" [] (by decide),
    c4_save_load_roundtrip "NOW"
      [⟨some 1, "a", "", .medium, .pending, "T1", none⟩] (by decide),
    c4_save_load_roundtrip "NOW"
      [⟨some 1, "a", "d", .high, .completed, "T1", some "T2"⟩,
       ⟨some 2, "b", "", .low, .in_progress, "T3", none⟩] (by decide)⟩

theorem mapM_from_dict_error (now : String) (ds : List Dict) (d : Dict)
    (hd : d ∈ ds) (he : Task.from_dict now d = .error ()) :
    ds.mapM (Task.from_dict now) = .error () := by
  induction ds with
  | nil => cases hd
  | cons a as ih =>
    rcases List.mem_cons.mp hd with h1 | h1
    · subst h1
      rw [List.mapM_cons, he]
      rfl
    · cases ha : Task.from_dict now a with
      | error e =>
        rw [List.mapM_cons, ha]
        cases e
        rfl
      | ok x =>
        rw [List.mapM_cons, ha, ih h1]
        rfl

/-- C8: a persisted input that fails to parse, any other unexpected load
failure, and a parsed document containing a record that `from_dict`
rejects all make `load_tasks` return the empty list with a non-fatal
warning; `loadTasks` is a total function, so no error propagates. -/
theorem c8_load_defensive (now : String) :
    loadTasks now .parseError = ⟨[], true⟩
    ∧ loadTasks now .otherError = ⟨[], true⟩
    ∧ (∀ ds d, d ∈ ds → Task.from_dict now d = .error () →
      loadTasks now (.doc ds) = ⟨[], true⟩) := by
  refine ⟨rfl, rfl, fun ds d hd he => ?_⟩
  show (match ds.mapM (Task.from_dict now) with
    | .ok ts => (⟨ts, false⟩ : LoadResult)
    | .error _ => ⟨[], true⟩) = ⟨[], true⟩
  rw [mapM_from_dict_error now ds d hd he]

/-- Witness for C8: a document whose only record carries the invalid
priority token `"urgent"` loads as the empty collection with a warning. -/
theorem c8_load_defensive_witness :
    loadTasks "NOW" (.doc [[("title", JsonVal.str "x"),
        ("priority", JsonVal.str "urgent")]]) = ⟨[], true⟩ :=
  (c8_load_defensive "NOW").2.2
    [[("title", JsonVal.str "x"), ("priority", JsonVal.str "urgent")]]
    [("title", JsonVal.str "x"), ("priority", JsonVal.str "urgent")]
    (List.mem_cons_self _ _) rfl

/-- C9 counterexample: the record written by `to_dict` has no field named
`id` — its identifier key is `task_id` (the keys are exactly `task_id`,
`title`, `description`, `priority`, `status`, `created_at`,
`completed_at`). -/
theorem c9_counterexample :
    ¬ ("id" ∈ (Task.to_dict
        ⟨some 1, "a", "", .medium, .pending, "T1", none⟩).map Prod.fst)
    ∧ (Task.to_dict ⟨some 1, "a", "", .medium, .pending, "T1", none⟩).map
        Prod.fst =
      ["task_id", "title", "description", "priority", "status",
        "created_at", "completed_at"] := by
  constructor
  · decide
  · rfl

/-- C9 amended: for every task, the persisted record written by save
contains exactly the fields `task_id` (integer — the stored value is the
task's integer id whenever the task carries one), `title` (text),
`description` (text), `priority` (one of the three lowercase tokens),
`status` (one of the three lowercase tokens, `in_progress` with an
underscore), `created_at` (ISO-8601 text), `completed_at` (ISO-8601 text
or null), and the document is an ordered sequence of such records. The
ISO-8601 timestamps of `datetime.isoformat()` are modelled as opaque
text, so the theorem states that the record stores the task's timestamp
fields verbatim. -/
theorem c9_record_layout (t : Task) :
    (Task.to_dict t).map Prod.fst =
      ["task_id", "title", "description", "priority", "status",
        "created_at", "completed_at"]
    ∧ (∀ n, t.task_id = some n →
        dictGet (Task.to_dict t) "task_id" = some (.int n))
    ∧ dictGet (Task.to_dict t) "title" = some (.str t.title)
    ∧ dictGet (Task.to_dict t) "description" = some (.str t.description)
    ∧ dictGet (Task.to_dict t) "priority" = some (.str t.priority.value)
    ∧ t.priority.value ∈ ["low", "medium", "high"]
    ∧ dictGet (Task.to_dict t) "status" = some (.str t.status.value)
    ∧ t.status.value ∈ ["pending", "in_progress", "completed"]
    ∧ dictGet (Task.to_dict t) "created_at" = some (.str t.created_at)
    ∧ (t.completed_at = none →
        dictGet (Task.to_dict t) "completed_at" = some .null)
    ∧ (∀ s, t.completed_at = some s →
        dictGet (Task.to_dict t) "completed_at" = some (.str s))
    ∧ (∀ tasks, saveDoc tasks = tasks.map Task.to_dict) := by
  rcases t with ⟨tid, title, de, pr, st, ca, co⟩
  refine ⟨rfl, ?_, rfl, rfl, rfl, ?_, rfl, ?_, rfl, ?_, ?_, fun tasks => rfl⟩
  · intro n hid
    simp only at hid
    subst hid
    rfl
  · cases pr <;> simp [Priority.value]
  · cases st <;> simp [Status.value]
  · rcases co with _ | c
    · intro _
      rfl
    · intro hco
      exact Option.noConfusion hco
  · intro s hco
    rcases co with _ | c
    · exact Option.noConfusion hco
    · rw [Option.some.injEq] at hco
      subst hco
      rfl

/-- Witness for C9's amended statement: the record of a concrete
completed task has exactly the seven keys with the stated value kinds. -/
theorem c9_record_layout_witness :
    (Task.to_dict ⟨some 4, "t", "d", .high, .completed, "T1", some "T2"⟩).map
        Prod.fst =
      ["task_id", "title", "description", "priority", "status",
        "created_at", "completed_at"]
    ∧ dictGet (Task.to_dict
        ⟨some 4, "t", "d", .high, .completed, "T1", some "T2"⟩) "task_id" =
      some (.int 4) :=
  ⟨(c9_record_layout ⟨some 4, "t", "d", .high, .completed, "T1", some "T2"⟩).1,
    (c9_record_layout
      ⟨some 4, "t", "d", .high, .completed, "T1", some "T2"⟩).2.1 4 rfl⟩

end TodoApp
